import Mathlib

/-!
Verification of the freshness-and-merge core of the news-pdf-scraper
repository: a shallow embedding of `app/services/scraper.py`
(listing dedup) and `app/services/cache.py` (freshness evaluation,
incremental reconciliation, persistence), with theorems settling the
frozen claims about it.

External collaborators (network fetches of listing pages and article
bodies, the hash function, the summarizer) are modelled as an explicit
environment `Env`; the SQLAlchemy-backed store is modelled as an
explicit `DB` value threaded through the operations.  Wall-clock time
(`datetime.utcnow()`) is a `Nat` parameter `now`, in seconds; the
4-hour freshness window is `14400` seconds.
-/

namespace NewsScraper

/-- ArticleStub: a listing entry `{url, title, category}` as produced by
`IndianExpressScraper.get_category_articles` (scraper.py:72-76). -/
structure Stub where
  url : String
  title : String
  category : String
deriving DecidableEq, Repr

/-! ## Near-Duplicate Filter (scraper.py:206-234, `_deduplicate_articles`)

Python string primitives `str.lower`, `str.strip` and argument-free
`str.split` are modelled character-wise over `String.data` (the titles in
scope are ASCII; `Char.toLower` lowers exactly the ASCII letters and
`Char.isWhitespace` covers the whitespace these operations strip and
split on). -/

/-- Python `str.lower()`. -/
def pyLower (s : String) : String := ⟨s.data.map Char.toLower⟩

/-- Python `str.strip()`: remove leading and trailing whitespace. -/
def pyStrip (s : String) : String :=
  ⟨((s.data.dropWhile Char.isWhitespace).reverse.dropWhile Char.isWhitespace).reverse⟩

/-- Helper for `pySplitWs`: accumulate the current word (reversed) while
walking the characters. -/
def splitWsGo : List Char → List Char → List String
  | [], acc => if acc = [] then [] else [⟨acc.reverse⟩]
  | c :: rest, acc =>
    if c.isWhitespace then
      if acc = [] then splitWsGo rest []
      else ⟨acc.reverse⟩ :: splitWsGo rest []
    else splitWsGo rest (c :: acc)

/-- Python `str.split()` with no argument: split on whitespace runs,
producing no empty tokens. -/
def pySplitWs (s : String) : List String := splitWsGo s.data []

/-- Python `article['title'].lower().strip()` (scraper.py:214). -/
def normTitle (t : String) : String := pyStrip (pyLower t)

/-- Python `set(title_normalized.split())` (scraper.py:215, 220). -/
def titleWords (t : String) : Finset String := (pySplitWs t).toFinset

/-- Python scraper.py:222-227: with both token sets non-empty,
`len(common)/max(len(a),len(b)) > 0.7`, written exactly over naturals as
`10*|a ∩ b| > 7*max |a| |b|`.  When either set is empty the Python guard
at line 222 skips the comparison; the inequality is then false as well
(the intersection is empty), so the guard needs no separate case. -/
def similarGT (w1 w2 : Finset String) : Bool :=
  decide (10 * (w1 ∩ w2).card > 7 * max w1.card w2.card)

/-- Python scraper.py:218-228: candidate token set against every kept
normalized title in `seen_titles`. -/
def isDuplicateOf (cand : Finset String) (seen : List String) : Bool :=
  seen.any (fun s => similarGT cand (titleWords s))

/-- Loop of scraper.py:213-232: walk stubs in order, keep a candidate only
when it is not a near-duplicate of an already-kept title, and record the
kept candidate's normalized title. -/
def dedupGo : List Stub → List String → List Stub
  | [], _ => []
  | a :: rest, seen =>
    let tn := normTitle a.title
    if isDuplicateOf (titleWords tn) seen then dedupGo rest seen
    else a :: dedupGo rest (tn :: seen)

/-- IndianExpressScraper._deduplicate_articles (scraper.py:206-234). -/
def deduplicate_articles (articles : List Stub) : List Stub :=
  dedupGo articles []

/-- Token-overlap comparison between two stubs' normalized titles, the
relation the near-duplicate claims quantify over. -/
def overlapGT (a b : Stub) : Bool :=
  similarGT (titleWords (normTitle a.title)) (titleWords (normTitle b.title))

/-! ## External environment

The listing fetch (network GET plus HTML link extraction,
scraper.py:36-105), the article-body fetch (scraper.py:236-279), the
SHA-256 digest and the summarizer (`summarizer.summarize_text`, which
never raises: every internal path is caught and falls back to
truncation) are external collaborators; each is a field of `Env`.
`listing category limit = none` and `page url = none` model a failed
network fetch. -/
structure Env where
  listing : String → Nat → Option (List Stub)
  page : String → Option (String × String)
  hash : String → String
  summarize : String → String → String × String

/-- IndianExpressScraper.get_category_articles (scraper.py:27-116): the raw
extracted stubs (`env.listing`) are deduplicated and capped at `limit`
(scraper.py:108-109); any fetch error is caught and yields `[]`
(scraper.py:114-116). -/
def get_category_articles (env : Env) (category : String) (limit : Nat) : List Stub :=
  match env.listing category limit with
  | none => []
  | some raw => (deduplicate_articles raw).take limit

/-- Article dict flowing through the reconciler.  Keys absent from the
Python dict are the empty string (`dict.get(key, '')` semantics) or `0`
for the cached articles' `scraped_at`. -/
structure Art where
  url : String
  title : String
  summary : String
  content : String
  category : String
  heading : String
  content_hash : String
  scraped_at : Nat
deriving DecidableEq, Repr

/-- IndianExpressScraper.get_article_content (scraper.py:236-290):
`env.page url` is the fetched page's extracted `(title, body)`; a fetch
or parse failure is `none` (scraper.py:288-290).  When the body strips
to the empty string the scraper returns `None` (scraper.py:276-277);
otherwise the dict carries the stripped body and a digest of the
unstripped body (scraper.py:279-286). -/
def get_article_content (env : Env) (article_url : String) : Option Art :=
  match env.page article_url with
  | none => none
  | some pg =>
    if pyStrip pg.2 = "" then none
    else some { url := article_url, title := pg.1, summary := "",
                content := pyStrip pg.2, category := "", heading := "",
                content_hash := env.hash pg.2, scraped_at := 0 }

/-! ## Persistent store (app/models.py)

The SQLAlchemy session is modelled as an explicit `DB` value: the
`articles` table, its autoincrement counter, and the `category_cache`
table.  `db.query(...).first()` is `List.find?` over the table in
insertion order. -/

/-- Article row (models.py:15-25). -/
structure ArticleRecord where
  id : Nat
  url : String
  category : String
  title : String
  summary : String
  content : String
  content_hash : String
  scraped_at : Nat
deriving DecidableEq, Repr

/-- CategoryCache row (models.py:27-35).  `latest_article_url`,
`cached_articles_json` and `cached_pdf_path` are nullable columns. -/
structure CacheEntry where
  category_name : String
  latest_article_url : Option String
  cached_articles_json : Option (List Nat)
  cached_pdf_path : Option String
  cached_at : Nat
deriving DecidableEq, Repr

/-- The database state threaded through `CacheManager`. -/
structure DB where
  articles : List ArticleRecord
  nextId : Nat
  cache : List CacheEntry
deriving DecidableEq, Repr

/-- Query `Article` by url, `.first()` (cache.py:122-124). -/
def DB.findArticleByUrl (db : DB) (u : String) : Option ArticleRecord :=
  db.articles.find? (fun r => r.url == u)

/-- Query `CategoryCache` by category name, `.first()` (cache.py:22-24). -/
def DB.findCache (db : DB) (category : String) : Option CacheEntry :=
  db.cache.find? (fun e => e.category_name == category)

/-- Descending insertion by `scraped_at`, keeping earlier rows first on
ties: models `ORDER BY scraped_at DESC` (cache.py:41; SQL leaves tie
order unspecified, no claim depends on it). -/
def insertDesc (r : ArticleRecord) : List ArticleRecord → List ArticleRecord
  | [] => [r]
  | x :: xs => if r.scraped_at ≤ x.scraped_at then x :: insertDesc r xs else r :: x :: xs

/-- Sort rows by `scraped_at` descending. -/
def sortByScrapedDesc (l : List ArticleRecord) : List ArticleRecord :=
  l.foldr insertDesc []

/-- Row-to-dict conversion of cache.py:44-53: the cached dict's `heading`
is the stored title and it carries no `content_hash` key (so `''` under
`dict.get`). -/
def recordToArt (r : ArticleRecord) : Art :=
  { url := r.url, title := r.title, summary := r.summary, content := r.content,
    category := r.category, heading := r.title, content_hash := "",
    scraped_at := r.scraped_at }

/-! ## CacheManager (app/services/cache.py) -/

/-- Four hours in seconds, `timedelta(hours=4)` (cache.py:31, 82). -/
def fourHours : Nat := 14400

/-- CacheManager.get_cached_articles (cache.py:21-56).  `none` models the
Python `None` returns (no entry, expired entry, empty/null id list);
`some []` occurs when the recorded ids match no rows (the Python
function then returns the empty, falsy, list). -/
def get_cached_articles (db : DB) (now : Nat) (category : String) : Option (List Art) :=
  match db.findCache category with
  | none => none
  | some ce =>
    if now - ce.cached_at > fourHours then none
    else
      match ce.cached_articles_json with
      | none => none
      | some ids =>
        if ids = [] then none
        else some ((sortByScrapedDesc (db.articles.filter (fun r => r.id ∈ ids))).map recordToArt)

/-- CacheManager.get_latest_article_url (cache.py:58-66): the url of the
first of `get_category_articles(category, limit=1)`, `None` when that
listing is empty (including on fetch failure). -/
def get_latest_article_url (env : Env) (category : String) : Option String :=
  match get_category_articles env category 1 with
  | [] => none
  | a :: _ => some a.url

/-- CacheManager.should_update_cache (cache.py:69-91).  Returns the
`(should_update, latest_cached_url)` pair.  The Python code obtains
`current_latest_url` before the no-entry check; since the fetch has no
effect on the store, evaluating it only in the branches that read it is
equivalent. -/
def should_update_cache (env : Env) (db : DB) (now : Nat) (category : String) :
    Bool × Option String :=
  match db.findCache category with
  | none => (true, none)
  | some ce =>
    if now - ce.cached_at > fourHours then (true, ce.latest_article_url)
    else if ce.latest_article_url ≠ get_latest_article_url env category then
      (true, ce.latest_article_url)
    else (false, ce.latest_article_url)

/-- Loop of cache.py:97-101: first index whose url equals the cached
fence-post url, `None` when absent. -/
def findCachedIdx (u : String) : List Stub → Option Nat
  | [] => none
  | a :: rest =>
    if a.url = u then some 0
    else (findCachedIdx u rest).map (· + 1)

/-- CacheManager.get_incremental_articles (cache.py:93-115): fetch up to
`limit * 3` stubs; if the fence-post url is at index `k`, the new stubs
are the prefix `[0, k)`, otherwise the top `limit` stubs.  Fetch
failures already yield `[]` inside `get_category_articles`. -/
def get_incremental_articles (env : Env) (category : String) (latest_cached_url : String)
    (limit : Nat) : List Stub :=
  let all_articles := get_category_articles env category (limit * 3)
  match findCachedIdx latest_cached_url all_articles with
  | some k => all_articles.take k
  | none => all_articles.take limit

/-- CacheManager.store_articles_in_db (cache.py:117-147): per article, if
a row with its url exists the existing id is reused and nothing changes;
otherwise a fresh row is inserted (autoincrement id, `scraped_at`
defaulting to now) and its new id recorded. -/
def store_articles_in_db (now : Nat) : DB → List Art → DB × List Nat
  | db, [] => (db, [])
  | db, a :: rest =>
    match db.findArticleByUrl a.url with
    | some existing =>
      let r := store_articles_in_db now db rest
      (r.1, existing.id :: r.2)
    | none =>
      let newRec : ArticleRecord :=
        { id := db.nextId, url := a.url, category := a.category, title := a.title,
          summary := a.summary, content := a.content, content_hash := a.content_hash,
          scraped_at := now }
      let db1 : DB := { db with articles := db.articles ++ [newRec], nextId := db.nextId + 1 }
      let r := store_articles_in_db now db1 rest
      (r.1, db.nextId :: r.2)

/-- Overwrite of an existing cache row (cache.py:154-158): the three
refreshed fields change, `category_name` and `cached_pdf_path` remain. -/
def overwriteEntry (now : Nat) (ids : List Nat) (latestUrl : String) (e : CacheEntry) :
    CacheEntry :=
  { e with latest_article_url := some latestUrl,
           cached_articles_json := some ids, cached_at := now }

/-- Mutation of the first matching row, as `.first()` returns it. -/
def updateCacheList (now : Nat) (category : String) (ids : List Nat) (latestUrl : String) :
    List CacheEntry → List CacheEntry
  | [] => []
  | e :: rest =>
    if e.category_name == category then overwriteEntry now ids latestUrl e :: rest
    else e :: updateCacheList now category ids latestUrl rest

/-- CacheManager.update_category_cache (cache.py:149-170): overwrite the
existing row for the category, or insert a new one. -/
def update_category_cache (db : DB) (now : Nat) (category : String) (ids : List Nat)
    (latestUrl : String) : DB :=
  match db.findCache category with
  | some _ => { db with cache := updateCacheList now category ids latestUrl db.cache }
  | none =>
    { db with cache := db.cache ++
        [{ category_name := category, latest_article_url := some latestUrl,
           cached_articles_json := some ids, cached_pdf_path := none, cached_at := now }] }

/-! ## CacheManager.get_articles_with_cache (cache.py:172-275)

The per-category body is split into named stages mirroring the source
blocks.  Besides the article lists and the store, each stage returns the
list of urls passed to `get_article_content` — the Content Fetcher call
trace the temporal claims quantify over. -/

/-- Resolution loop of cache.py:207-212: fetch content for every new
stub, keep the successes tagged with the category, and record each
Content Fetcher call. -/
def resolveStubs (env : Env) (category : String) : List Stub → List Art × List String
  | [] => ([], [])
  | l :: rest =>
    let tail := resolveStubs env category rest
    match get_article_content env l.url with
    | none => (tail.1, l.url :: tail.2)
    | some c => ({ c with category := category } :: tail.1, l.url :: tail.2)

/-- Summarization loop of cache.py:214-222: articles with non-empty
content get a heading and summary from the summarizer. -/
def summarizeArts (env : Env) (arts : List Art) : List Art :=
  arts.map (fun a =>
    if a.content = "" then a
    else
      let hs := env.summarize a.content a.title
      { a with heading := hs.1, summary := hs.2 })

/-- Top-up loop of cache.py:243-259: walk the additional stubs, stopping
once the final list reaches `limit`; skip urls already present; resolve
and summarize each remaining stub, appending successes.  A url enters
`existing` only when its resolution succeeded, as in the source. -/
def topUpGo (env : Env) (category : String) (limit : Nat) :
    List Stub → List Art → List String → List String → List Art × List String
  | [], finalArts, _, tr => (finalArts, tr)
  | link :: rest, finalArts, existing, tr =>
    if limit ≤ finalArts.length then (finalArts, tr)
    else if link.url ∈ existing then topUpGo env category limit rest finalArts existing tr
    else
      match get_article_content env link.url with
      | none => topUpGo env category limit rest finalArts existing (tr ++ [link.url])
      | some c =>
        let c1 := { c with category := category }
        let c2 :=
          if c1.content = "" then c1
          else
            let hs := env.summarize c1.content c1.title
            { c1 with heading := hs.1, summary := hs.2 }
        topUpGo env category limit rest (finalArts ++ [c2]) (link.url :: existing)
          (tr ++ [link.url])

/-- Fetch stage of cache.py:192-205: with a truthy fence-post url, fetch
incrementally and load the cached articles (`or []`); otherwise a plain
fetch of `limit` stubs with no cached articles. -/
def refreshFetch (env : Env) (limit now : Nat) (db : DB) (category : String)
    (latestCachedUrl : Option String) : List Stub × List Art :=
  match latestCachedUrl with
  | some u =>
    if u = "" then (get_category_articles env category limit, [])
    else (get_incremental_articles env category u limit,
          (get_cached_articles db now category).getD [])
  | none => (get_category_articles env category limit, [])

/-- Merge of cache.py:224-232: the newly resolved articles followed by
the cached articles whose url is not already among them (the `if
cached_articles:` guard is redundant for the empty list but kept). -/
def mergeCached (newWithContent cachedArts : List Art) : List Art :=
  newWithContent ++
    (if cachedArts = [] then []
     else cachedArts.filter (fun a => a.url ∉ newWithContent.map Art.url))

/-- Merge-and-top-up stage of cache.py:192-259, producing the final
article list and the Content Fetcher call trace. -/
def refreshCompute (env : Env) (limit now : Nat) (db : DB) (category : String)
    (latestCachedUrl : Option String) : List Art × List String :=
  let fetched := refreshFetch env limit now db category latestCachedUrl
  let rs := resolveStubs env category fetched.1
  let newWithContent := summarizeArts env rs.1
  let allArticles := mergeCached newWithContent fetched.2
  let final0 := allArticles.take limit
  if final0.length < limit ∧ newWithContent.length < limit then
    let tu := topUpGo env category limit (get_category_articles env category (limit * 2))
      final0 (allArticles.map Art.url) []
    (tu.1, rs.2 ++ tu.2)
  else (final0, rs.2)

/-- Persistence stage of cache.py:261-267: store the final articles that
have content; when any were stored, overwrite the category's cache state
with the stored ids and the url of the final list's head. -/
def refreshPersist (now : Nat) (db : DB) (category : String) (finalArticles : List Art) :
    DB :=
  let articlesToStore := finalArticles.filter (fun a => a.content ≠ "")
  if articlesToStore = [] then db
  else
    let sr := store_articles_in_db now db articlesToStore
    match finalArticles with
    | [] => sr.1
    | f :: _ => update_category_cache sr.1 now category sr.2 f.url

/-- Refresh path for one category (cache.py:191-270): compute the final
list, persist, and report the Content Fetcher trace. -/
def refreshCategory (env : Env) (limit now : Nat) (db : DB) (category : String)
    (latestCachedUrl : Option String) : List Art × DB × List String :=
  let fc := refreshCompute env limit now db category latestCachedUrl
  (fc.1, refreshPersist now db category fc.1, fc.2)

/-- Loop body of cache.py:177-270 for one category: when the cache is
fresh and the cached read is non-empty, serve it capped at `limit` with
no Content Fetcher call; otherwise refresh. -/
def processCategory (env : Env) (limit now : Nat) (db : DB) (category : String) :
    List Art × DB × List String :=
  let su := should_update_cache env db now category
  let freshServe : Option (List Art) :=
    if su.1 then none
    else
      match get_cached_articles db now category with
      | some l => if l = [] then none else some l
      | none => none
  match freshServe with
  | some l => (l.take limit, db, [])
  | none => refreshCategory env limit now db category su.2

/-- Python dict assignment `results[category] = v`: replace the value at
an existing key, else append the binding. -/
def setResult : List (String × List Art) → String → List Art → List (String × List Art)
  | [], c, v => [(c, v)]
  | p :: rest, c, v => if p.1 == c then (c, v) :: rest else p :: setResult rest c v

/-- The `for category in categories` loop of cache.py:177-270, threading
the results dict, the session and the Content Fetcher trace. -/
def orchGo (env : Env) (limit now : Nat) :
    List String → List (String × List Art) → DB → List String →
    List (String × List Art) × DB × List String
  | [], rs, db, tr => (rs, db, tr)
  | c :: cats, rs, db, tr =>
    let step := processCategory env limit now db c
    orchGo env limit now cats (setResult rs c step.1) step.2.1 (tr ++ step.2.2)

/-- CacheManager.get_articles_with_cache (cache.py:172-275), in the run
where no store operation raises.  Returns the results dict, the store,
and the Content Fetcher call trace. -/
def get_articles_with_cache (env : Env) (categories : List String) (limit now : Nat)
    (db : DB) : List (String × List Art) × DB × List String :=
  orchGo env limit now categories [] db []

/-- The same loop with store failures made explicit.  cache.py:176-275
wraps the loop in `try ... finally: db.close()` with no `except` clause,
so an exception raised by a session operation while a category is being
processed propagates to the caller; `storeRaises c = true` models the
session raising at the first query for that category
(`should_update_cache`, cache.py:70), the earliest store touch of the
loop body. -/
def orchGoE (env : Env) (storeRaises : String → Bool) (limit now : Nat) :
    List String → List (String × List Art) → DB → List String →
    Except String (List (String × List Art) × DB × List String)
  | [], rs, db, tr => .ok (rs, db, tr)
  | c :: cats, rs, db, tr =>
    if storeRaises c then .error c
    else
      let step := processCategory env limit now db c
      orchGoE env storeRaises limit now cats (setResult rs c step.1) step.2.1 (tr ++ step.2.2)

/-- CacheManager.get_articles_with_cache with the store failure model:
`.ok` is a normal return, `.error c` the exception escaping while
category `c` was being processed. -/
def get_articles_with_cache_exc (env : Env) (storeRaises : String → Bool)
    (categories : List String) (limit now : Nat) (db : DB) :
    Except String (List (String × List Art) × DB × List String) :=
  orchGoE env storeRaises limit now categories [] db []

/-- Key-presence in the results dict. -/
def hasKey (rs : List (String × List Art)) (c : String) : Bool :=
  rs.any (fun p => p.1 == c)

/-! ## Fence-post scan lemmas -/

/-- When the urls of a listing are pairwise distinct and the url `u`
stands at index `k`, the scan of cache.py:97-101 stops exactly at `k`,
and no entry of the prefix `[0, k)` carries `u`. -/
lemma incremental_found (u : String) :
    ∀ (l : List Stub) (k : Nat),
      (l.map Stub.url).Nodup → (l.map Stub.url)[k]? = some u →
      findCachedIdx u l = some k ∧ ∀ a ∈ l.take k, a.url ≠ u := by
  intro l
  induction l with
  | nil => intro k _ hk; simp at hk
  | cons a rest ih =>
    intro k hnd hk
    match k with
    | 0 =>
      rw [List.map_cons, List.getElem?_cons_zero, Option.some_inj] at hk
      exact ⟨by simp [findCachedIdx, hk], by simp⟩
    | Nat.succ k =>
      rw [List.map_cons, List.getElem?_cons_succ] at hk
      rw [List.map_cons, List.nodup_cons] at hnd
      have hne : a.url ≠ u := by
        intro h
        exact hnd.1 (h ▸ List.getElem?_mem hk)
      obtain ⟨hfind, hpref⟩ := ih k hnd.2 hk
      refine ⟨by simp [findCachedIdx, hne, hfind], ?_⟩
      intro b hb
      rw [List.take_succ_cons, List.mem_cons] at hb
      rcases hb with rfl | hb
      · exact hne
      · exact hpref b hb

/-- When no entry of the listing carries the url `u`, the scan of
cache.py:97-101 reports it absent. -/
lemma incremental_absent (u : String) :
    ∀ (l : List Stub), (∀ a ∈ l, a.url ≠ u) → findCachedIdx u l = none := by
  intro l
  induction l with
  | nil => intro _; rfl
  | cons a rest ih =>
    intro h
    have ha : a.url ≠ u := h a (List.mem_cons_self a rest)
    simp [findCachedIdx, ha, ih (fun b hb => h b (List.mem_cons_of_mem a hb))]

/-- C1: for every category, target count, and fence-post url present at
index `k` of the deduplicated fetched listing of up to `3 * limit`
stubs, `get_incremental_articles` returns exactly the first `k` entries
of that listing, none of which carries the fence-post url.  (The
listing's urls are pairwise distinct, as the extractor's `found_urls`
set guarantees for every real listing.) -/
theorem C1_fence_post (env : Env) (category u : String) (limit k : Nat)
    (hnodup : ((get_category_articles env category (limit * 3)).map Stub.url).Nodup)
    (hk : ((get_category_articles env category (limit * 3)).map Stub.url)[k]? = some u) :
    get_incremental_articles env category u limit =
      (get_category_articles env category (limit * 3)).take k ∧
    ∀ a ∈ get_incremental_articles env category u limit, a.url ≠ u := by
  obtain ⟨hfind, hpref⟩ := incremental_found u _ k hnodup hk
  have heq : get_incremental_articles env category u limit =
      (get_category_articles env category (limit * 3)).take k := by
    simp [get_incremental_articles, hfind]
  exact ⟨heq, by rw [heq]; exact hpref⟩

/-- Stub fixtures for the concrete witnesses. -/
def stubA : Stub := ⟨"https://e/a", "gamma delta epsilon zeta news", "world"⟩

def stubB : Stub := ⟨"https://e/b", "kilo lima mike november report", "world"⟩

/-- Environment fixture: every listing fetch extracts `[stubA, stubB]`,
every page resolves with a non-empty body. -/
def envW : Env :=
  { listing := fun _ _ => some [stubA, stubB],
    page := fun _ => some ("fetched page title words", "fetched body text"),
    hash := fun s => s,
    summarize := fun _ _ => ("made heading", "made summary") }

/-- Witness for C1 at `envW`: fence-post at index 1 of the two-stub
listing, one new stub. -/
theorem C1_witness :
    get_incremental_articles envW "world" "https://e/b" 1 =
      (get_category_articles envW "world" (1 * 3)).take 1 ∧
    ∀ a ∈ get_incremental_articles envW "world" "https://e/b" 1, a.url ≠ "https://e/b" :=
  C1_fence_post envW "world" "https://e/b" 1 1 (by decide) (by decide)

/-- C6: when the fence-post url is absent from the deduplicated fetched
window of up to `3 * limit` stubs, `get_incremental_articles` returns
exactly the top `limit` stubs of that window. -/
theorem C6_missing_fence_post (env : Env) (category u : String) (limit : Nat)
    (habsent : ∀ a ∈ get_category_articles env category (limit * 3), a.url ≠ u) :
    get_incremental_articles env category u limit =
      (get_category_articles env category (limit * 3)).take limit := by
  simp [get_incremental_articles, incremental_absent u _ habsent]

/-- Witness for C6 at `envW`: a fence-post url absent from the listing. -/
theorem C6_witness :
    get_incremental_articles envW "world" "https://e/zz" 1 =
      (get_category_articles envW "world" (1 * 3)).take 1 :=
  C6_missing_fence_post envW "world" "https://e/zz" 1 (by decide)

/-! ## Near-duplicate filter properties -/

/-- The overlap test of scraper.py:223-224 is symmetric in the two token
sets. -/
lemma similarGT_comm (w1 w2 : Finset String) : similarGT w1 w2 = similarGT w2 w1 := by
  unfold similarGT
  rw [Finset.inter_comm, Nat.max_comm]

/-- Every title recorded in `seen` stays dissimilar from every stub the
walk keeps afterwards: a kept stub passed the duplicate test against the
whole `seen` list it was checked under, and `seen` only grows. -/
lemma dedupGo_not_similar :
    ∀ (l : List Stub) (seen : List String) (s : String), s ∈ seen →
      ∀ b ∈ dedupGo l seen,
        similarGT (titleWords (normTitle b.title)) (titleWords s) = false := by
  intro l
  induction l with
  | nil => intro seen s _ b hb; simp [dedupGo] at hb
  | cons a rest ih =>
    intro seen s hs b hb
    rw [dedupGo] at hb
    by_cases hdup : isDuplicateOf (titleWords (normTitle a.title)) seen = true
    · rw [if_pos hdup] at hb
      exact ih seen s hs b hb
    · rw [if_neg hdup] at hb
      rcases List.mem_cons.mp hb with rfl | hb
      · have hfal : (seen.any
            (fun s => similarGT (titleWords (normTitle b.title)) (titleWords s))) = false :=
          Bool.eq_false_iff.mpr hdup
        simpa using List.any_eq_false.mp hfal s hs
      · exact ih (normTitle a.title :: seen) s (List.mem_cons_of_mem _ hs) b hb

/-- The walk of scraper.py:213-232 returns a subsequence of its input. -/
lemma dedupGo_sublist : ∀ (l : List Stub) (seen : List String), (dedupGo l seen).Sublist l := by
  intro l
  induction l with
  | nil => intro seen; simp [dedupGo]
  | cons a rest ih =>
    intro seen
    rw [dedupGo]
    by_cases hdup : isDuplicateOf (titleWords (normTitle a.title)) seen = true
    · rw [if_pos hdup]
      exact (ih seen).cons a
    · rw [if_neg hdup]
      exact (ih _).cons₂ a

/-- No two stubs kept by the walk have token overlap above the 0.7
threshold. -/
lemma dedupGo_pairwise :
    ∀ (l : List Stub) (seen : List String),
      (dedupGo l seen).Pairwise (fun a b => overlapGT a b = false) := by
  intro l
  induction l with
  | nil => intro seen; simp [dedupGo]
  | cons a rest ih =>
    intro seen
    rw [dedupGo]
    by_cases hdup : isDuplicateOf (titleWords (normTitle a.title)) seen = true
    · rw [if_pos hdup]; exact ih seen
    · rw [if_neg hdup]
      refine List.pairwise_cons.mpr ⟨?_, ih _⟩
      intro b hb
      have := dedupGo_not_similar rest (normTitle a.title :: seen) (normTitle a.title)
        (List.mem_cons_self _ _) b hb
      rw [overlapGT, similarGT_comm]
      exact this

/-- C3 (amended): the near-duplicate filter returns an order-preserving
subsequence of its input in which no two kept stubs have normalized
title token overlap above 0.7; a candidate is dropped exactly when it
overlaps an earlier kept stub, so of two kept-conflicting stubs the
earlier-kept one survives — but the original claim's stronger reading,
that of ANY over-threshold pair the earlier-positioned stub is the one
kept, fails (see the counterexample). -/
theorem C3_dedup_properties (articles : List Stub) :
    (deduplicate_articles articles).Sublist articles ∧
    (deduplicate_articles articles).Pairwise (fun a b => overlapGT a b = false) :=
  ⟨dedupGo_sublist articles [], dedupGo_pairwise articles []⟩

/-- Counterexample to C3 as stated: stubs `cexH`, `cexI`, `cexJ` in that
input order.  `cexI` and `cexJ` overlap above 0.7 (3 common tokens of
4), yet the filter keeps the LATER `cexJ` and drops the earlier `cexI`:
`cexI` was already discarded as a near-duplicate of the still-earlier
kept `cexH`, while `cexJ` overlaps `cexH` by only 2 of 4 tokens.  So the
earlier-positioned stub of an over-threshold pair is not always the one
kept. -/
theorem C3_counterexample :
    overlapGT ⟨"u2", "alpha bravo charlie echo", "c"⟩ ⟨"u3", "alpha bravo echo foxtrot", "c"⟩
        = true ∧
    deduplicate_articles
        [⟨"u1", "alpha bravo charlie delta", "c"⟩,
         ⟨"u2", "alpha bravo charlie echo", "c"⟩,
         ⟨"u3", "alpha bravo echo foxtrot", "c"⟩] =
      [⟨"u1", "alpha bravo charlie delta", "c"⟩,
       ⟨"u3", "alpha bravo echo foxtrot", "c"⟩] ∧
    (⟨"u2", "alpha bravo charlie echo", "c"⟩ : Stub) ∉
      deduplicate_articles
        [⟨"u1", "alpha bravo charlie delta", "c"⟩,
         ⟨"u2", "alpha bravo charlie echo", "c"⟩,
         ⟨"u3", "alpha bravo echo foxtrot", "c"⟩] ∧
    (⟨"u3", "alpha bravo echo foxtrot", "c"⟩ : Stub) ∈
      deduplicate_articles
        [⟨"u1", "alpha bravo charlie delta", "c"⟩,
         ⟨"u2", "alpha bravo charlie echo", "c"⟩,
         ⟨"u3", "alpha bravo echo foxtrot", "c"⟩] := by
  refine ⟨by decide, by decide, by decide, by decide⟩

/-! ## Idempotent storage -/

/-- C7: storing an article whose url already has a record leaves the
whole store unchanged — no second record, every field of the existing
record intact — and returns exactly the existing record's id
(cache.py:122-128). -/
theorem C7_idempotent_storage (db : DB) (now : Nat) (a : Art) (r : ArticleRecord)
    (hfind : db.findArticleByUrl a.url = some r) :
    store_articles_in_db now db [a] = (db, [r.id]) := by
  simp [store_articles_in_db, hfind]

/-- Store fixture: one stored article row with id 1. -/
def recW : ArticleRecord :=
  { id := 1, url := "https://e/a", category := "world", title := "gamma delta epsilon zeta news",
    summary := "s", content := "stored body", content_hash := "h", scraped_at := 50 }

/-- Article dict fixture sharing `recW`'s url. -/
def artW : Art :=
  { url := "https://e/a", title := "another title entirely here", summary := "s2",
    content := "other body", category := "world", heading := "h2", content_hash := "h2",
    scraped_at := 0 }

/-- Witness for C7: re-storing a dict with `recW`'s url returns id 1 and
changes nothing. -/
theorem C7_witness :
    store_articles_in_db 99 ⟨[recW], 2, []⟩ [artW] = (⟨[recW], 2, []⟩, [1]) :=
  C7_idempotent_storage ⟨[recW], 2, []⟩ 99 artW recW (by decide)

/-! ## Bounded output -/

/-- The top-up loop of cache.py:243-259 never grows the final list past
`limit`: the loop breaks as soon as `limit` is reached and otherwise
appends one article at a time. -/
lemma topUpGo_length (env : Env) (category : String) (limit : Nat) :
    ∀ (links : List Stub) (finalArts : List Art) (existing tr : List String),
      finalArts.length ≤ limit →
      (topUpGo env category limit links finalArts existing tr).1.length ≤ limit := by
  intro links
  induction links with
  | nil => intro finalArts existing tr h; exact h
  | cons link rest ih =>
    intro finalArts existing tr h
    rw [topUpGo]
    by_cases hfull : limit ≤ finalArts.length
    · rw [if_pos hfull]; exact h
    · rw [if_neg hfull]
      by_cases hmem : link.url ∈ existing
      · rw [if_pos hmem]; exact ih finalArts existing tr h
      · rw [if_neg hmem]
        match get_article_content env link.url with
        | none => exact ih finalArts existing _ h
        | some c =>
          refine ih _ _ _ ?_
          simp only [List.length_append, List.length_singleton]
          omega

/-- The refresh path caps its final list at `limit`
(cache.py:234, 243-259). -/
lemma refreshCompute_length (env : Env) (limit now : Nat) (db : DB) (category : String)
    (lcu : Option String) :
    (refreshCompute env limit now db category lcu).1.length ≤ limit := by
  rw [refreshCompute]
  dsimp only
  split
  · exact topUpGo_length env category limit _ _ _ _ (List.length_take_le _ _)
  · exact List.length_take_le _ _

/-- Every per-category list `processCategory` produces has length at most
`limit`: the cached serve is capped at cache.py:187, the refresh at
cache.py:234 and within the top-up loop. -/
lemma processCategory_length (env : Env) (limit now : Nat) (db : DB) (category : String) :
    (processCategory env limit now db category).1.length ≤ limit := by
  rw [processCategory]
  split
  · exact List.length_take_le _ _
  · exact refreshCompute_length env limit now db category _

/-- `setResult` keeps every value bounded when the inserted value is. -/
lemma setResult_bounded {limit : Nat} :
    ∀ (rs : List (String × List Art)) (c : String) (v : List Art),
      (∀ p ∈ rs, p.2.length ≤ limit) → v.length ≤ limit →
      ∀ p ∈ setResult rs c v, p.2.length ≤ limit := by
  intro rs
  induction rs with
  | nil =>
    intro c v _ hv p hp
    rw [setResult] at hp
    rcases List.mem_singleton.mp hp with rfl
    exact hv
  | cons q rest ih =>
    intro c v hrs hv p hp
    rw [setResult] at hp
    by_cases hq : (q.1 == c) = true
    · rw [if_pos hq] at hp
      rcases List.mem_cons.mp hp with rfl | hp
      · exact hv
      · exact hrs p (List.mem_cons_of_mem q hp)
    · rw [if_neg hq] at hp
      rcases List.mem_cons.mp hp with rfl | hp
      · exact hrs _ (List.mem_cons_self _ _)
      · exact ih c v (fun x hx => hrs x (List.mem_cons_of_mem q hx)) hv p hp

/-- Loop invariant for the orchestrator: all result lists stay bounded. -/
lemma orchGo_bounded (env : Env) (limit now : Nat) :
    ∀ (cats : List String) (rs : List (String × List Art)) (db : DB) (tr : List String),
      (∀ p ∈ rs, p.2.length ≤ limit) →
      ∀ p ∈ (orchGo env limit now cats rs db tr).1, p.2.length ≤ limit := by
  intro cats
  induction cats with
  | nil => intro rs db tr h p hp; exact h p hp
  | cons c rest ih =>
    intro rs db tr h p hp
    rw [orchGo] at hp
    exact ih _ _ _
      (setResult_bounded rs c _ h (processCategory_length env limit now db c)) p hp

/-- C2: every per-category list in the map returned by
`get_articles_with_cache` has length at most the target count, the
one-shot top-up pass included. -/
theorem C2_bounded_output (env : Env) (categories : List String) (limit now : Nat)
    (db : DB) :
    ∀ p ∈ (get_articles_with_cache env categories limit now db).1, p.2.length ≤ limit := by
  intro p hp
  exact orchGo_bounded env limit now categories [] db [] (by intro q hq; simp at hq) p hp

/-- Witness for C2 at `envW`: the single result entry for "world" is
bounded by the target 1 (here the head of the computed results dict). -/
theorem C2_witness :
    ((get_articles_with_cache envW ["world"] 1 0 ⟨[], 1, []⟩).1.head!).2.length ≤ 1 :=
  C2_bounded_output envW ["world"] 1 0 ⟨[], 1, []⟩
    ((get_articles_with_cache envW ["world"] 1 0 ⟨[], 1, []⟩).1.head!) (by decide)

/-! ## Freshness short-circuit -/

/-- C4 (amended): when the category's cache entry is within the 4-hour
window, its stored url equals the current newest listing url, AND the
store yields a non-empty cached article list for the recorded ids, the
category is served from cache with no Content Fetcher call.  The last
condition is necessary: without it the self-healing fall-through of
cache.py:185-189 refreshes and fetches content (see the
counterexample). -/
theorem C4_freshness_short_circuit (env : Env) (db : DB) (now : Nat) (category : String)
    (limit : Nat) (ce : CacheEntry)
    (hce : db.findCache category = some ce)
    (hfresh : now - ce.cached_at ≤ fourHours)
    (hurl : ce.latest_article_url = get_latest_article_url env category)
    (hcached : (get_cached_articles db now category).getD [] ≠ []) :
    (processCategory env limit now db category).2.2 = [] := by
  obtain ⟨l, hl, hlne⟩ : ∃ l, get_cached_articles db now category = some l ∧ l ≠ [] := by
    cases hcc : get_cached_articles db now category with
    | none => rw [hcc] at hcached; simp at hcached
    | some l =>
      rw [hcc] at hcached
      exact ⟨l, rfl, by simpa using hcached⟩
  have hsu : should_update_cache env db now category = (false, ce.latest_article_url) := by
    rw [should_update_cache, hce]
    dsimp only
    rw [if_neg (by omega), if_neg (by simp [hurl])]
  rw [processCategory, hsu]
  simp [hl, hlne]

/-- Cache-state fixture: a fresh entry for "world" whose stored url is
the current newest (`stubA.url`) and whose recorded id 1 resolves to
`recW`. -/
def dbFresh : DB :=
  ⟨[recW], 2, [⟨"world", some "https://e/a", some [1], none, 40⟩]⟩

/-- Witness for C4 (amended) at `envW` and `dbFresh`: no Content Fetcher
call occurs. -/
theorem C4_witness : (processCategory envW 5 50 dbFresh "world").2.2 = [] :=
  C4_freshness_short_circuit envW dbFresh 50 "world" 5
    ⟨"world", some "https://e/a", some [1], none, 40⟩
    (by decide) (by decide) (by decide) (by decide)

/-- Listing fixtures for the C4 counterexample. -/
def stubTop : Stub := ⟨"https://e/top", "current top story headline", "world"⟩

def stubNew : Stub := ⟨"https://e/new", "second big report headline", "world"⟩

/-- Environment fixture for the C4 counterexample: asking for one stub
yields the newest `stubTop`, larger windows also contain `stubNew`. -/
def envC4 : Env :=
  { listing := fun _ k => if k = 1 then some [stubTop] else some [stubNew, stubTop],
    page := fun _ => some ("fetched page title words", "fetched body text"),
    hash := fun s => s,
    summarize := fun _ _ => ("made heading", "made summary") }

/-- Store fixture for the C4 counterexample: the entry is fresh and its
url current, but the recorded id 1 matches no article row. -/
def dbC4 : DB := ⟨[], 1, [⟨"world", some "https://e/top", some [1], none, 1000⟩]⟩

/-- Counterexample to C4 as stated: the "world" entry is fresh
(`cachedAt` = now) and its `latestSeenUrl` equals the current newest
listing url, yet processing the category performs a Content Fetcher call
(for `stubNew`): the recorded id resolves to no row, so the cached read
is the falsy empty list and cache.py:185-189 falls through to a
refresh. -/
theorem C4_counterexample :
    dbC4.findCache "world" = some ⟨"world", some "https://e/top", some [1], none, 1000⟩ ∧
    1000 - 1000 ≤ fourHours ∧
    some "https://e/top" = get_latest_article_url envC4 "world" ∧
    (processCategory envC4 1 1000 dbC4 "world").2.2 = ["https://e/new"] := by
  refine ⟨by decide, by decide, by decide, by decide⟩

/-! ## Cache-state overwrite after a refresh -/

/-- Updating the first matching cache row makes the lookup return that
row overwritten with the three refreshed fields. -/
lemma find_updateCacheList (now : Nat) (category : String) (ids : List Nat)
    (latestUrl : String) :
    ∀ (l : List CacheEntry) (e : CacheEntry),
      l.find? (fun x => x.category_name == category) = some e →
      (updateCacheList now category ids latestUrl l).find?
          (fun x => x.category_name == category)
        = some (overwriteEntry now ids latestUrl e) := by
  intro l
  induction l with
  | nil => intro e he; simp at he
  | cons x rest ih =>
    intro e he
    rw [List.find?_cons] at he
    by_cases hx : (x.category_name == category) = true
    · rw [hx] at he
      have hxe : x = e := Option.some_inj.mp he
      subst hxe
      rw [updateCacheList, if_pos hx, List.find?_cons]
      have hx2 : ((overwriteEntry now ids latestUrl x).category_name == category) = true := hx
      rw [hx2]
    · have hxf : (x.category_name == category) = false := Bool.eq_false_iff.mpr hx
      rw [hxf] at he
      have he2 : List.find? (fun y => y.category_name == category) rest = some e := he
      rw [updateCacheList, if_neg hx, List.find?_cons, hxf]
      exact ih e he2

/-- After `update_category_cache`, the category's cache row exists and
carries exactly the refreshed url, ids and timestamp (cache.py:149-170),
whether the row was overwritten or created. -/
lemma findCache_update_category (db : DB) (now : Nat) (category : String) (ids : List Nat)
    (latestUrl : String) :
    ∃ ce, (update_category_cache db now category ids latestUrl).findCache category = some ce ∧
      ce.latest_article_url = some latestUrl ∧
      ce.cached_articles_json = some ids ∧
      ce.cached_at = now := by
  rw [update_category_cache]
  cases hfc : db.findCache category with
  | some e =>
    exact ⟨overwriteEntry now ids latestUrl e,
      find_updateCacheList now category ids latestUrl db.cache e hfc, rfl, rfl, rfl⟩
  | none =>
    refine ⟨{ category_name := category, latest_article_url := some latestUrl,
              cached_articles_json := some ids, cached_pdf_path := none, cached_at := now },
            ?_, rfl, rfl, rfl⟩
    have hfc2 : db.cache.find? (fun x => x.category_name == category) = none := hfc
    show (db.cache ++ [_]).find? _ = _
    rw [List.find?_append, hfc2]
    simp

/-- The persistence stage overwrites the cache state whenever at least
one final article has content: stored ids, head url, refresh time. -/
lemma refreshPersist_overwrites (now : Nat) (db : DB) (category : String)
    (finalArticles : List Art)
    (hstore : finalArticles.filter (fun a => a.content ≠ "") ≠ []) :
    ∃ f rest ce, finalArticles = f :: rest ∧
      (refreshPersist now db category finalArticles).findCache category = some ce ∧
      ce.latest_article_url = some f.url ∧
      ce.cached_articles_json =
        some (store_articles_in_db now db
          (finalArticles.filter (fun a => a.content ≠ ""))).2 ∧
      ce.cached_at = now := by
  have hne : finalArticles ≠ [] := by
    intro h; rw [h] at hstore; simp at hstore
  obtain ⟨f, rest, rfl⟩ := List.exists_cons_of_ne_nil hne
  rw [refreshPersist]
  dsimp only
  rw [if_neg hstore]
  obtain ⟨ce, hce, h1, h2, h3⟩ := findCache_update_category
    (store_articles_in_db now db ((f :: rest).filter (fun a => a.content ≠ ""))).1
    now category
    (store_articles_in_db now db ((f :: rest).filter (fun a => a.content ≠ ""))).2 f.url
  exact ⟨f, rest, ce, rfl, hce, h1, h2, h3⟩

/-- C8 (amended): after a refresh whose final list holds at least one
article with non-empty content, the category's cache state is
overwritten: `latestSeenUrl` is the final head's url,
`cachedArticleIds` the ids upserted for this refresh, `cachedAt` the
refresh time.  The content condition is necessary: a refresh whose final
list is non-empty but all-empty-content skips the overwrite entirely
(cache.py:261-267; see the counterexample). -/
theorem C8_cache_overwrite (env : Env) (limit now : Nat) (db : DB) (category : String)
    (lcu : Option String)
    (hstore : (refreshCategory env limit now db category lcu).1.filter
        (fun a => a.content ≠ "") ≠ []) :
    ∃ f rest ce,
      (refreshCategory env limit now db category lcu).1 = f :: rest ∧
      ((refreshCategory env limit now db category lcu).2.1).findCache category = some ce ∧
      ce.latest_article_url = some f.url ∧
      ce.cached_articles_json =
        some (store_articles_in_db now db
          ((refreshCategory env limit now db category lcu).1.filter
            (fun a => a.content ≠ ""))).2 ∧
      ce.cached_at = now :=
  refreshPersist_overwrites now db category (refreshCategory env limit now db category lcu).1
    hstore

/-- Witness for C8 (amended): a full refresh of "world" against an empty
store at `envW` resolves one article with content and overwrites the
cache state. -/
theorem C8_witness :
    ∃ f rest ce,
      (refreshCategory envW 1 7 ⟨[], 1, []⟩ "world" none).1 = f :: rest ∧
      ((refreshCategory envW 1 7 ⟨[], 1, []⟩ "world" none).2.1).findCache "world" = some ce ∧
      ce.latest_article_url = some f.url ∧
      ce.cached_articles_json =
        some (store_articles_in_db 7 ⟨[], 1, []⟩
          ((refreshCategory envW 1 7 ⟨[], 1, []⟩ "world" none).1.filter
            (fun a => a.content ≠ ""))).2 ∧
      ce.cached_at = 7 :=
  C8_cache_overwrite envW 1 7 ⟨[], 1, []⟩ "world" none (by decide)

/-- Stored row with empty content, as an external writer (or an earlier
schema state) may leave in the articles table. -/
def recEmpty : ArticleRecord :=
  { id := 1, url := "https://e/old", category := "world",
    title := "stored cached story title", summary := "s", content := "",
    content_hash := "", scraped_at := 5 }

/-- Store fixture for the C8 counterexample: a fresh "world" entry whose
single cached row `recEmpty` has empty content. -/
def dbC8 : DB := ⟨[recEmpty], 2, [⟨"world", some "https://e/u0", some [1], none, 0⟩]⟩

/-- Environment fixture for the C8 counterexample: the single-stub
listing works (so the entry is stale: newest url differs), every larger
listing fetch and every page fetch fails. -/
def envC8 : Env :=
  { listing := fun _ k => if k = 1 then some [stubTop] else none,
    page := fun _ => none,
    hash := fun s => s,
    summarize := fun _ _ => ("made heading", "made summary") }

/-- Counterexample to C8 as stated: processing "world" takes the refresh
path (stale entry) and produces a NON-EMPTY final list — the cached
article, whose content is empty — yet the store is left completely
untouched: `cached_at` stays 0 instead of the refresh time 1000 and
`latestSeenUrl` stays "https://e/u0" instead of the final head's url.
The guard `if articles_to_store:` (cache.py:262) skips the overwrite
because no final article has content. -/
theorem C8_counterexample :
    (processCategory envC8 5 1000 dbC8 "world").1 ≠ [] ∧
    (processCategory envC8 5 1000 dbC8 "world").2.1 = dbC8 ∧
    dbC8.findCache "world" = some ⟨"world", some "https://e/u0", some [1], none, 0⟩ := by
  refine ⟨by decide, by decide, by decide⟩

/-! ## Freshness evaluation under fetch failure -/

/-- C9 (amended): when the Listing Fetcher cannot be reached during
freshness evaluation and a cache entry with a stored `latestSeenUrl`
exists, a refresh is triggered — but WITH the stored url as fence-post,
i.e. an incremental refresh, not the NoCache-equivalent full refresh the
original claim states (see the counterexample). -/
theorem C9_fetch_failure_refresh (env : Env) (db : DB) (now : Nat) (category : String)
    (ce : CacheEntry)
    (hce : db.findCache category = some ce)
    (hfail : env.listing category 1 = none)
    (hurl : ce.latest_article_url ≠ none) :
    should_update_cache env db now category = (true, ce.latest_article_url) := by
  have hcur : get_latest_article_url env category = none := by
    simp [get_latest_article_url, get_category_articles, hfail]
  rw [should_update_cache, hce]
  dsimp only
  rw [hcur]
  by_cases hexp : now - ce.cached_at > fourHours
  · rw [if_pos hexp]
  · rw [if_neg hexp, if_pos hurl]

/-- Environment fixture with an unreachable Listing Fetcher. -/
def envFail : Env :=
  { listing := fun _ _ => none,
    page := fun _ => none,
    hash := fun s => s,
    summarize := fun _ _ => ("made heading", "made summary") }

/-- Witness for C9 (amended): expired entry, unreachable fetcher — the
decision carries the stored fence-post url. -/
theorem C9_witness :
    should_update_cache envFail dbC8 20000 "world" = (true, some "https://e/u0") :=
  C9_fetch_failure_refresh envFail dbC8 20000 "world"
    ⟨"world", some "https://e/u0", some [1], none, 0⟩ (by decide) (by decide) (by decide)

/-- Counterexample to C9 as stated: with the fetcher unreachable and a
fresh cache entry present, the evaluator decides `(true, some url)` — a
refresh WITH the stored fence-post (incremental), not the
NoCache-equivalent `(true, none)` (full refresh) the claim describes;
cache.py:86-88 compares the stored url against the `None` fetch result
and returns the stored url as fence-post. -/
theorem C9_counterexample :
    should_update_cache envFail dbC8 1000 "world" = (true, some "https://e/u0") ∧
    (should_update_cache envFail dbC8 1000 "world").2 ≠ none := by
  refine ⟨by decide, by decide⟩

/-! ## Failure isolation across categories -/

/-- When no store operation raises, the exception-aware loop returns
normally with exactly the results of the plain loop — for every
environment, including ones whose listing or content fetches all fail:
fetch failures are absorbed inside the fetch layer and never abort the
batch. -/
lemma orchGoE_agrees (env : Env) (storeRaises : String → Bool) (limit now : Nat) :
    ∀ (cats : List String) (rs : List (String × List Art)) (db : DB) (tr : List String),
      (∀ c ∈ cats, storeRaises c = false) →
      orchGoE env storeRaises limit now cats rs db tr =
        .ok (orchGo env limit now cats rs db tr) := by
  intro cats
  induction cats with
  | nil => intro rs db tr _; rfl
  | cons c rest ih =>
    intro rs db tr h
    rw [orchGoE, orchGo]
    rw [if_neg (by simp [h c (List.mem_cons_self c rest)])]
    exact ih _ _ _ (fun x hx => h x (List.mem_cons_of_mem c hx))

/-- C5 (amended, positive part): listing/content fetch failures are soft
— whatever the fetch environment does, a call in which no store
operation raises returns normally with every category's result computed.
Only a store failure can abort the batch (see the counterexample). -/
theorem C5_fetch_failures_soft (env : Env) (storeRaises : String → Bool)
    (categories : List String) (limit now : Nat) (db : DB)
    (h : ∀ c ∈ categories, storeRaises c = false) :
    get_articles_with_cache_exc env storeRaises categories limit now db =
      .ok (get_articles_with_cache env categories limit now db) :=
  orchGoE_agrees env storeRaises limit now categories [] db [] h

/-- Witness for C5 (amended) with the all-failing fetch environment
`envFail`: the batch still returns normally. -/
theorem C5_witness :
    get_articles_with_cache_exc envFail (fun _ => false) ["world", "sports"] 1 0 ⟨[], 1, []⟩
      = .ok (get_articles_with_cache envFail ["world", "sports"] 1 0 ⟨[], 1, []⟩) :=
  C5_fetch_failures_soft envFail (fun _ => false) ["world", "sports"] 1 0 ⟨[], 1, []⟩
    (by simp)

/-- Counterexample to C5 as stated: a store failure while the FIRST
category is processed is not caught anywhere in cache.py:176-275 (the
`try` has only a `finally`), so the whole call raises: the failing
category does not receive an empty result and the second category is
never processed — refuting both "caught and yields an empty result" and
"the remaining categories are still processed". -/
theorem C5_counterexample :
    get_articles_with_cache_exc envW (fun c => c == "aaa") ["aaa", "bbb"] 1 0 ⟨[], 1, []⟩
      = .error "aaa" := rfl

/-! ## Every requested category is keyed in a normal return -/

/-- Assigning a key makes it present. -/
lemma setResult_hasKey_self :
    ∀ (rs : List (String × List Art)) (c : String) (v : List Art),
      hasKey (setResult rs c v) c = true := by
  intro rs
  induction rs with
  | nil => intro c v; simp [setResult, hasKey]
  | cons p rest ih =>
    intro c v
    rw [setResult]
    by_cases hp : (p.1 == c) = true
    · rw [if_pos hp]; simp [hasKey]
    · rw [if_neg hp]
      have := ih c v
      simp [hasKey, List.any_cons] at this ⊢
      exact Or.inr this

/-- Assigning one key preserves the presence of every key. -/
lemma setResult_hasKey_mono :
    ∀ (rs : List (String × List Art)) (c d : String) (v : List Art),
      hasKey rs d = true → hasKey (setResult rs c v) d = true := by
  intro rs
  induction rs with
  | nil => intro c d v h; simp [hasKey] at h
  | cons p rest ih =>
    intro c d v h
    rw [setResult]
    simp only [hasKey, List.any_cons, Bool.or_eq_true] at h
    by_cases hp : (p.1 == c) = true
    · rw [if_pos hp]
      simp only [hasKey, List.any_cons, Bool.or_eq_true]
      rcases h with h | h
      · left
        have hpc : p.1 = c := by simpa using hp
        have hpd : p.1 = d := by simpa using h
        simp [← hpc, hpd]
      · exact Or.inr h
    · rw [if_neg hp]
      simp only [hasKey, List.any_cons, Bool.or_eq_true]
      rcases h with h | h
      · exact Or.inl h
      · exact Or.inr (ih c d v h)

/-- Loop invariant: a normal return of the orchestrator keys every
processed category and loses no earlier key. -/
lemma orchGoE_keys (env : Env) (storeRaises : String → Bool) (limit now : Nat) :
    ∀ (cats : List String) (rs : List (String × List Art)) (db : DB) (tr : List String)
      (r : List (String × List Art) × DB × List String),
      orchGoE env storeRaises limit now cats rs db tr = .ok r →
      (∀ d, hasKey rs d = true → hasKey r.1 d = true) ∧
      (∀ c ∈ cats, hasKey r.1 c = true) := by
  intro cats
  induction cats with
  | nil =>
    intro rs db tr r h
    rw [orchGoE] at h
    cases h
    exact ⟨fun d hd => hd, fun c hc => absurd hc (List.not_mem_nil c)⟩
  | cons c rest ih =>
    intro rs db tr r h
    rw [orchGoE] at h
    by_cases hsr : storeRaises c = true
    · rw [if_pos hsr] at h; cases h
    · rw [if_neg hsr] at h
      obtain ⟨hmono, hall⟩ := ih _ _ _ r h
      refine ⟨fun d hd => hmono d (setResult_hasKey_mono rs c d _ hd), ?_⟩
      intro x hx
      rcases List.mem_cons.mp hx with rfl | hx
      · exact hmono x (setResult_hasKey_self rs x _)
      · exact hall x hx

/-- C10: whenever `get_articles_with_cache` returns normally, the
results dict holds a key for every requested category — also for
categories that yielded zero articles. -/
theorem C10_result_keys (env : Env) (storeRaises : String → Bool)
    (categories : List String) (limit now : Nat) (db : DB)
    (r : List (String × List Art) × DB × List String)
    (hok : get_articles_with_cache_exc env storeRaises categories limit now db = .ok r) :
    ∀ c ∈ categories, hasKey r.1 c = true :=
  (orchGoE_keys env storeRaises limit now categories [] db [] r hok).2

/-- Witness for C10 with the all-failing fetch environment: the "world"
key is present even though its article list is empty. -/
theorem C10_witness :
    hasKey (get_articles_with_cache envFail ["world"] 1 0 ⟨[], 1, []⟩).1 "world" = true :=
  C10_result_keys envFail (fun _ => false) ["world"] 1 0 ⟨[], 1, []⟩
    (get_articles_with_cache envFail ["world"] 1 0 ⟨[], 1, []⟩) rfl "world"
    (List.mem_cons_self "world" [])

end NewsScraper
